import Mathlib

/-
Shallow embedding of the trade-execution and wallet-custody pipeline of the
Base DEX Telegram bot (sources: the trade module containing `fetchQuote`,
`ensureAllowanceIfNeeded`, `buyToken`, `sellToken`; `errorHandler.ts`;
`wallet.ts`'s `encryptPrivateKey` / `decryptPrivateKey`; `portfolio.ts`'s
`getHoldings`; and the SQL function `get_holdings_for_user`).

External effects (database reads, RPC calls, HTTP fetches, transaction
broadcasts, ledger writes) are made explicit: each pipeline function takes an
environment describing the responses the outside world would give and returns
its result together with the ordered list of external effects it performed.
-/

namespace DexBot

/-- Error classes of `errorHandler.ts`: `ValidationError`, `WalletError`,
`TradeError` (all `UserError` subclasses), `NetworkError`, and a plain
JavaScript `Error` (unclassified). Each carries its message string. -/
inductive BotErr where
  | validationError (msg : String)
  | walletError (msg : String)
  | tradeError (msg : String)
  | networkError (msg : String)
  | plainError (msg : String)
  deriving DecidableEq

/-- The classification (constructor) of a `BotErr`, without its message. -/
inductive ErrClass where
  | validation
  | wallet
  | trade
  | network
  | plain
  deriving DecidableEq

def BotErr.cls : BotErr → ErrClass
  | .validationError _ => .validation
  | .walletError _ => .wallet
  | .tradeError _ => .trade
  | .networkError _ => .network
  | .plainError _ => .plain

/-- Classification of a pipeline outcome: `some c` when it failed with an
error of class `c`, `none` on success. -/
def classOf {α : Type} : Except BotErr α → Option ErrClass
  | .error e => some e.cls
  | .ok _ => none

/-- The nested `transaction` object of a 0x quote response: `{to, data, value?}`
(`to` and `data` are named `toAddr`/`callData` here; `to` is reserved). -/
structure TxPayload where
  toAddr : String
  callData : String
  value : Option Nat
  deriving DecidableEq

/-- Parsed JSON body of a 0x quote response, as the trade module reads it:
`liquidityAvailable`, an optional nested `transaction`, optional flattened
`to`/`data`/`value`, `buyAmount`, `sellAmount`, `allowanceTarget`.
Absent JSON fields are `none`. -/
structure QuoteJson where
  liquidityAvailable : Bool
  transaction : Option TxPayload
  toAddr : Option String
  callData : Option String
  value : Option Nat
  buyAmount : Option Nat
  sellAmount : Option Nat
  allowanceTarget : Option String
  deriving DecidableEq

/-- An HTTP response from the quote API: `res.ok`, `res.status`, and the
parsed JSON body. -/
structure HttpResp where
  ok : Bool
  status : Nat
  body : QuoteJson
  deriving DecidableEq

/-- JavaScript truthiness of an optional string field: `undefined`/`null` and
the empty string are falsy. -/
def jsTruthyStr : Option String → Bool
  | none => false
  | some s => s != ""

/-- `fetchQuote`: on non-ok HTTP status it throws a plain
`Error('0x quote error <status>')`; then, if the body reports
`liquidityAvailable` falsy, it throws a `TradeError`; otherwise it returns
the parsed body. -/
def fetchQuote (res : HttpResp) : Except BotErr QuoteJson :=
  if !res.ok then
    .error (.plainError ("0x quote error " ++ toString res.status))
  else if !res.body.liquidityAvailable then
    .error (.tradeError "No liquidity available for this trade. Try a different amount or token.")
  else
    .ok res.body

/-- Order type of a ledger row (`order_type in ('buy','sell')`). -/
inductive OrderType where
  | buy
  | sell
  deriving DecidableEq

/-- One row inserted by `recordTransaction` into the `transactions` table
(the stored `date` column is not modelled). -/
structure TradeRecord where
  telegramUserId : String
  symbol : String
  amount : ℚ
  priceUsd : Option ℚ
  orderType : OrderType
  deriving DecidableEq

/-- External effects a pipeline invocation can perform, in order:
wallet lookup / signer resolution (`getSignerForUser`), token metadata read
(`decimals()`/`symbol()`), USD price fetch (`getUsdPrice`), quote HTTP fetch,
allowance read (`allowance(owner, spender)`), approval submission
(`approve(...)`), waiting for the approval receipt, swap transaction
broadcast (`sendTransaction`), waiting for the swap receipt, and the ledger
insert (`recordTransaction`). -/
inductive Effect where
  | signerResolve
  | metadataRead
  | priceFetch
  | quoteFetch
  | allowanceRead
  | approvalSubmit
  | approvalWait
  | swapSubmit
  | receiptWait
  | recordWrite (r : TradeRecord)
  deriving DecidableEq

/-- Does a trace contain a ledger write? -/
def hasRecord (tr : List Effect) : Bool :=
  tr.any fun e =>
    match e with
    | .recordWrite _ => true
    | _ => false

/-- `ensureAllowanceIfNeeded(signer, token, spender, amount)`, reduced to its
effect trace: it reads the current allowance of (owner, spender); if
`current >= amount` it returns with no further effect; otherwise it submits
one `approve(spender, amount)` transaction and waits for its receipt before
returning. `current` is the on-chain allowance the read returns. -/
def ensureAllowanceIfNeeded (current amount : Nat) : List Effect :=
  if amount ≤ current then
    [.allowanceRead]
  else
    [.allowanceRead, .approvalSubmit, .approvalWait]

/-- Environment of one `buyToken`/`sellToken` invocation: what each external
call would answer. `walletExists` is whether the wallets table has a row for
the user (`getSignerForUser` throws a `WalletError` otherwise); `decimals`
and `symbolRead` are the token contract reads (`symbol()` failure is `none`,
caught with fallback `'TOKEN'`); `priceUsd` is `getUsdPrice`'s nullable
answer; `quoteResp` the quote API's HTTP response; `currentAllowance` what an
`allowance(owner, spender)` read returns; `receiptStatus` the `status` of the
awaited swap receipt (`none` models a null receipt or status). -/
structure Env where
  telegramUserId : String
  tokenAddress : String
  walletExists : Bool
  decimals : Nat
  symbolRead : Option String
  priceUsd : Option ℚ
  quoteResp : HttpResp
  currentAllowance : Nat
  receiptStatus : Option Nat
  deriving DecidableEq

/-- `ethers.parseUnits(x.toString(), d)`: converts a human-readable decimal
amount into raw units at `d` decimals. It is exact: a fractional remainder
below the precision makes it throw (a plain underflow `Error`), it never
rounds to zero. Human amounts are modelled as exact rationals. -/
def parseUnitsE (q : ℚ) (d : Nat) : Except BotErr ℤ :=
  if (q * (10 : ℚ) ^ d).den = 1 then
    .ok (q * (10 : ℚ) ^ d).num
  else
    .error (.plainError "underflow")

/-- `ethers.formatUnits(v, d)` followed by `parseFloat`: the raw amount `v`
read at `d` decimals, modelled as the exact rational `v / 10^d`. -/
def formatUnitsQ (v : Nat) (d : Nat) : ℚ :=
  (v : ℚ) / (10 : ℚ) ^ d

/-- The status text JavaScript interpolates for `receipt?.status`. -/
def statusText : Option Nat → String
  | none => "undefined"
  | some n => toString n

/-- Successful result of `buyToken` (the transaction hash is not modelled). -/
structure BuyResult where
  symbol : String
  tokensReceived : ℚ
  ethSpent : ℚ
  priceUsd : Option ℚ
  deriving DecidableEq

/-- Successful result of `sellToken` (the transaction hash is not modelled). -/
structure SellResult where
  symbol : String
  tokensSold : ℚ
  ethReceived : ℚ
  priceUsd : Option ℚ
  deriving DecidableEq

/-- `buyToken(telegramUserId, tokenAddress, amountEthUnits)`: resolve the
signer; read decimals/symbol and fetch the USD price; normalize the ETH
amount with `parseEther` and reject a non-positive raw amount; fetch the
quote; reject a quote with neither a `transaction` object nor a truthy `to`;
broadcast the quote's transaction and await the receipt; on a receipt whose
status is not 1 throw a `TradeError` without recording; otherwise compute
`tokensReceived` from the quote's `buyAmount` through the token's decimals,
record one `'buy'` ledger row, and return. -/
def buyToken (env : Env) (amountEthUnits : ℚ) :
    Except BotErr BuyResult × List Effect :=
  if !env.walletExists then
    (.error (.walletError "Wallet not found. Please use /start to create a wallet."),
     [.signerResolve])
  else
    let symbol := env.symbolRead.getD "TOKEN"
    let tr0 : List Effect := [.signerResolve, .metadataRead, .priceFetch]
    match parseUnitsE amountEthUnits 18 with
    | .error e => (.error e, tr0)
    | .ok sellAmountRaw =>
      if sellAmountRaw ≤ 0 then
        (.error (.plainError "Amount too small. Increase amount."), tr0)
      else
        match fetchQuote env.quoteResp with
        | .error e => (.error e, tr0 ++ [.quoteFetch])
        | .ok quote =>
          if quote.transaction.isNone && !jsTruthyStr quote.toAddr then
            (.error (.tradeError "Invalid quote response: missing transaction data"),
             tr0 ++ [.quoteFetch])
          else
            let tr1 := tr0 ++ [.quoteFetch, .swapSubmit, .receiptWait]
            if env.receiptStatus = some 1 then
              let tokensReceived : ℚ :=
                match quote.buyAmount with
                | some v => formatUnitsQ v env.decimals
                | none => 0
              (.ok { symbol := symbol, tokensReceived := tokensReceived,
                     ethSpent := amountEthUnits, priceUsd := env.priceUsd },
               tr1 ++ [.recordWrite { telegramUserId := env.telegramUserId,
                                      symbol := symbol, amount := tokensReceived,
                                      priceUsd := env.priceUsd, orderType := .buy }])
            else
              (.error (.tradeError
                 ("Transaction failed with status: " ++ statusText env.receiptStatus)),
               tr1)

/-- `sellToken(telegramUserId, tokenAddress, amountTokenUnits)`: like
`buyToken` but selling the token for native ETH: the amount is normalized at
the token's decimals (rejecting a non-positive raw amount with a
`TradeError`); after the quote, if `quote.allowanceTarget` is truthy,
`ensureAllowanceIfNeeded` runs for `BigInt(quote.sellAmount ?? amountRaw)`
before the swap is broadcast; on a status-1 receipt one `'sell'` ledger row
with the human token amount is recorded and the received ETH is computed from
the quote's `buyAmount` at 18 decimals. -/
def sellToken (env : Env) (amountTokenUnits : ℚ) :
    Except BotErr SellResult × List Effect :=
  if !env.walletExists then
    (.error (.walletError "Wallet not found. Please use /start to create a wallet."),
     [.signerResolve])
  else
    let symbol := env.symbolRead.getD "TOKEN"
    let tr0 : List Effect := [.signerResolve, .metadataRead, .priceFetch]
    match parseUnitsE amountTokenUnits env.decimals with
    | .error e => (.error e, tr0)
    | .ok amountRaw =>
      if amountRaw ≤ 0 then
        (.error (.tradeError "Amount too small. Increase amount."), tr0)
      else
        match fetchQuote env.quoteResp with
        | .error e => (.error e, tr0 ++ [.quoteFetch])
        | .ok quote =>
          if quote.transaction.isNone && !jsTruthyStr quote.toAddr then
            (.error (.tradeError "Invalid quote response: missing transaction data"),
             tr0 ++ [.quoteFetch])
          else
            let allowanceTrace : List Effect :=
              if jsTruthyStr quote.allowanceTarget then
                ensureAllowanceIfNeeded env.currentAllowance
                  (quote.sellAmount.getD amountRaw.toNat)
              else []
            let tr1 := tr0 ++ [.quoteFetch] ++ allowanceTrace ++ [.swapSubmit, .receiptWait]
            if env.receiptStatus = some 1 then
              let ethReceived : ℚ :=
                match quote.buyAmount with
                | some v => formatUnitsQ v 18
                | none => 0
              (.ok { symbol := symbol, tokensSold := amountTokenUnits,
                     ethReceived := ethReceived, priceUsd := env.priceUsd },
               tr1 ++ [.recordWrite { telegramUserId := env.telegramUserId,
                                      symbol := symbol, amount := amountTokenUnits,
                                      priceUsd := env.priceUsd, orderType := .sell }])
            else
              (.error (.tradeError
                 ("Transaction failed with status: " ++ statusText env.receiptStatus)),
               tr1)

/-! ## Key Vault (`wallet.ts`: `encryptPrivateKey` / `decryptPrivateKey`)

`encryptPrivateKey` strips an optional leading `0x` from the key string,
decodes the remaining hex into bytes (`Buffer.from(..., 'hex')`), and
encrypts them with AES-256-GCM under the process key and a fresh IV.
`decryptPrivateKey` authenticates the tag, decrypts, hex-encodes the
plaintext bytes (`Buffer.toString('hex')`, which emits lowercase digits) and
prepends `'0x'`.

AES-GCM encrypts in counter mode: ciphertext byte `i` is plaintext byte `i`
XOR the keystream byte `i` derived from the process key and the envelope's
IV; decryption under the same key and IV applies the same keystream. The
cipher layer is therefore modelled by an arbitrary keystream `ks : ℕ → ℕ`
(standing for the key/IV pair, which encryption stores in the envelope and
decryption re-derives) and an arbitrary tag function `tagOf` (GHASH under the
key); the base64 transport encoding of the envelope's fields, a bijection on
byte strings, is elided. Key strings are modelled as `List Char`. -/

/-- Value of one hex digit (`0-9`, `a-f`, `A-F`), `none` otherwise. -/
def hexDigitVal (c : Char) : Option Nat :=
  if 48 ≤ c.toNat ∧ c.toNat ≤ 57 then some (c.toNat - 48)
  else if 97 ≤ c.toNat ∧ c.toNat ≤ 102 then some (c.toNat - 87)
  else if 65 ≤ c.toNat ∧ c.toNat ≤ 70 then some (c.toNat - 55)
  else none

/-- Is `c` a lowercase hex digit (`0-9` or `a-f`)? -/
def isHexLower (c : Char) : Bool :=
  (48 ≤ c.toNat && c.toNat ≤ 57) || (97 ≤ c.toNat && c.toNat ≤ 102)

/-- `Buffer.from(s, 'hex')`: decode hex pairs into bytes, truncating at the
first invalid pair or odd trailing character. -/
def hexDecode : List Char → List Nat
  | c1 :: c2 :: rest =>
    match hexDigitVal c1, hexDigitVal c2 with
    | some hi, some lo => (16 * hi + lo) :: hexDecode rest
    | _, _ => []
  | _ => []

/-- Lowercase hex digit character for a value `0..15`. -/
def toHexDigit (n : Nat) : Char :=
  if n < 10 then Char.ofNat (48 + n) else Char.ofNat (87 + n)

/-- `Buffer.toString('hex')`: two lowercase hex digits per byte. -/
def hexEncode : List Nat → List Char
  | [] => []
  | b :: rest => toHexDigit (b / 16) :: toHexDigit (b % 16) :: hexEncode rest

/-- `pkHex.replace(/^0x/, '')`: drop one leading `0x` if present. -/
def strip0x (s : List Char) : List Char :=
  match s with
  | c1 :: c2 :: rest => if c1 = '0' ∧ c2 = 'x' then rest else s
  | _ => s

/-- CTR-mode byte stream: XOR each byte with the keystream, starting at
counter position `i`. Applying it twice with the same keystream is the
identity, which is exactly AES-GCM's decryption of its own encryption. -/
def xorStream (ks : Nat → Nat) : Nat → List Nat → List Nat
  | _, [] => []
  | i, b :: rest => (b ^^^ ks i) :: xorStream ks (i + 1) rest

/-- The at-rest envelope `{iv, ciphertext, tag}` of `wallet.ts` (the IV is
absorbed into the keystream parameter; base64 transport is elided). -/
structure Envelope where
  ciphertext : List Nat
  tag : Nat
  deriving DecidableEq

/-- `encryptPrivateKey(pkHex)`: strip an optional `0x` prefix, hex-decode the
key material, encrypt it under the keystream, and attach the auth tag. -/
def encryptPrivateKey (ks : Nat → Nat) (tagOf : List Nat → Nat)
    (pkHex : List Char) : Envelope :=
  let plaintext := hexDecode (strip0x pkHex)
  let ct := xorStream ks 0 plaintext
  { ciphertext := ct, tag := tagOf ct }

/-- `decryptPrivateKey(enc)`: fail (`none`) if the tag does not authenticate
the ciphertext; otherwise decrypt and return `'0x' + plaintext.toString('hex')`. -/
def decryptPrivateKey (ks : Nat → Nat) (tagOf : List Nat → Nat)
    (env : Envelope) : Option (List Char) :=
  if env.tag = tagOf env.ciphertext then
    some ('0' :: 'x' :: hexEncode (xorStream ks 0 env.ciphertext))
  else
    none

/-! ## Holdings derivation (`portfolio.ts` `getHoldings` and the SQL
function `get_holdings_for_user`) -/

/-- The signed contribution of one transactions row to a net position:
`+amount` for a buy, `-amount` otherwise. -/
def signedDelta (r : TradeRecord) : ℚ :=
  if r.orderType = .buy then r.amount else -r.amount

/-- Add `d` to the entry of `sym` in an insertion-ordered association list,
appending a fresh entry when absent — the `Map` update loop of
`portfolio.ts`'s `getHoldings`. -/
def upsertNet (acc : List (String × ℚ)) (sym : String) (d : ℚ) :
    List (String × ℚ) :=
  match acc with
  | [] => [(sym, d)]
  | (k, v) :: rest =>
    if k = sym then (k, v + d) :: rest else (k, v) :: upsertNet rest sym d

/-- `portfolio.ts` `getHoldings(telegramUserId)`: over the user's
transactions rows, accumulate `symbol ↦ net` with `+amount` for buys and
`-amount` for sells, and return all entries (no positivity filter). -/
def getHoldings (rows : List TradeRecord) (telegramUserId : String) :
    List (String × ℚ) :=
  (rows.filter (fun r => r.telegramUserId == telegramUserId)).foldl
    (fun acc r => upsertNet acc r.symbol (signedDelta r)) []

/-- The net position of one user's symbol:
`sum(case when order_type = 'buy' then amount else -amount end)` over the
user's rows for that symbol. -/
def netAmount (rows : List TradeRecord) (uid sym : String) : ℚ :=
  ((rows.filter (fun r => r.telegramUserId == uid && r.symbol == sym)).map
    signedDelta).sum

/-- The SQL function `get_holdings_for_user(p_telegram_user_id)`: group the
user's transactions rows by symbol, sum the signed amounts, and keep only
groups whose net is strictly positive (`having ... > 0`). -/
def get_holdings_for_user (rows : List TradeRecord) (p : String) :
    List (String × ℚ) :=
  (((rows.filter (fun r => r.telegramUserId == p)).map (·.symbol)).dedup).filterMap
    fun s =>
      let n := netAmount rows p s
      if 0 < n then some (s, n) else none

/-! Helper lemmas for the hex codec and keystream cipher. -/

theorem xorStream_xorStream (ks : Nat → Nat) :
    ∀ (l : List Nat) (i : Nat), xorStream ks i (xorStream ks i l) = l := by
  intro l
  induction l with
  | nil => intro i; rfl
  | cons b rest ih =>
    intro i
    simp [xorStream, Nat.xor_cancel_right, ih (i + 1)]

theorem hexDigitVal_isHexLower (c : Char) (hc : isHexLower c = true) :
    ∃ v, hexDigitVal c = some v ∧ v < 16 ∧ toHexDigit v = c := by
  simp only [isHexLower, Bool.or_eq_true, Bool.and_eq_true, decide_eq_true_eq] at hc
  rcases hc with ⟨h1, h2⟩ | ⟨h1, h2⟩
  · refine ⟨c.toNat - 48, ?_, by omega, ?_⟩
    · simp only [hexDigitVal]
      rw [if_pos ⟨h1, h2⟩]
    · simp only [toHexDigit]
      rw [if_pos (by omega)]
      have : 48 + (c.toNat - 48) = c.toNat := by omega
      rw [this, Char.ofNat_toNat]
  · refine ⟨c.toNat - 87, ?_, by omega, ?_⟩
    · simp only [hexDigitVal]
      rw [if_neg (by omega), if_pos ⟨h1, h2⟩]
    · simp only [toHexDigit]
      rw [if_neg (by omega)]
      have : 87 + (c.toNat - 87) = c.toNat := by omega
      rw [this, Char.ofNat_toNat]

theorem hexEncode_hexDecode :
    ∀ (h : List Char), h.all isHexLower = true → h.length % 2 = 0 →
      hexEncode (hexDecode h) = h
  | [], _, _ => rfl
  | [c], _, hlen => by simp at hlen
  | c1 :: c2 :: rest, hall, hlen => by
    simp only [List.all_cons, Bool.and_eq_true] at hall
    obtain ⟨h1, h2, hrest⟩ := hall
    obtain ⟨v1, hv1, hv1lt, hc1⟩ := hexDigitVal_isHexLower c1 h1
    obtain ⟨v2, hv2, hv2lt, hc2⟩ := hexDigitVal_isHexLower c2 h2
    have hlen2 : rest.length % 2 = 0 := by
      simp only [List.length_cons] at hlen
      omega
    simp only [hexDecode, hv1, hv2, hexEncode]
    have e1 : (16 * v1 + v2) / 16 = v1 := by omega
    have e2 : (16 * v1 + v2) % 16 = v2 := by omega
    rw [e1, e2, hc1, hc2, hexEncode_hexDecode rest hrest hlen2]

theorem strip0x_of_0x (h : List Char) : strip0x ('0' :: 'x' :: h) = h := by
  simp [strip0x]

theorem strip0x_of_hex (c1 c2 : Char) (rest : List Char)
    (hc2 : isHexLower c2 = true) :
    strip0x (c1 :: c2 :: rest) = c1 :: c2 :: rest := by
  simp only [strip0x]
  rw [if_neg]
  rintro ⟨-, hx⟩
  subst hx
  exact absurd hc2 (by decide)

theorem decrypt_encrypt (ks : Nat → Nat) (tagOf : List Nat → Nat)
    (pkHex : List Char) :
    decryptPrivateKey ks tagOf (encryptPrivateKey ks tagOf pkHex)
      = some ('0' :: 'x' :: hexEncode (hexDecode (strip0x pkHex))) := by
  simp [encryptPrivateKey, decryptPrivateKey, xorStream_xorStream]

/-- C2 (counterexample to the claim as stated): `decryptPrivateKey ∘
encryptPrivateKey` is not the identity on all valid raw key material. For the
valid 64-hex-digit key `K = 'aa…a'` written without a `0x` prefix (accepted
by `validatePrivateKey`), the round-trip returns `'0x' + K`, not `K`. -/
theorem C2_roundtrip_counterexample :
    decryptPrivateKey (fun _ => 0) (fun _ => 0)
      (encryptPrivateKey (fun _ => 0) (fun _ => 0) (List.replicate 64 'a'))
      ≠ some (List.replicate 64 'a') := by
  decide

/-- C2 (amended): for every raw private-key string of the form `'0x'`
followed by an even-length string of lowercase hex digits, decrypting the
envelope produced by encrypting it returns it unchanged, for every keystream
(process key / IV pair) and tag function. -/
theorem C2_encrypt_decrypt_roundtrip (ks : Nat → Nat) (tagOf : List Nat → Nat)
    (h : List Char) (hall : h.all isHexLower = true)
    (heven : h.length % 2 = 0) :
    decryptPrivateKey ks tagOf (encryptPrivateKey ks tagOf ('0' :: 'x' :: h))
      = some ('0' :: 'x' :: h) := by
  rw [decrypt_encrypt, strip0x_of_0x, hexEncode_hexDecode h hall heven]

/-- C2 witness: the round-trip theorem applied to the concrete key
`'0x' + 'ab' * 32` under a nonzero keystream. -/
theorem C2_roundtrip_witness :
    decryptPrivateKey (fun i => i + 7) (fun l => l.sum)
      (encryptPrivateKey (fun i => i + 7) (fun l => l.sum)
        ('0' :: 'x' :: (List.replicate 32 'a' ++ List.replicate 32 'b')))
      = some ('0' :: 'x' :: (List.replicate 32 'a' ++ List.replicate 32 'b')) :=
  C2_encrypt_decrypt_roundtrip (fun i => i + 7) (fun l => l.sum)
    (List.replicate 32 'a' ++ List.replicate 32 'b') (by decide) (by decide)

/-- C9 (counterexample to the claim as stated): for the 64-hex-character key
`K = 'AA…A'` (uppercase, no prefix), the round-trip returns `'0x'` followed
by the lowercase re-encoding `'aa…a'`, not `'0x' + K`: hex re-encoding on
decrypt lowercases the digits. -/
theorem C9_prefix_counterexample :
    decryptPrivateKey (fun _ => 0) (fun _ => 0)
      (encryptPrivateKey (fun _ => 0) (fun _ => 0) (List.replicate 64 'A'))
      ≠ some ('0' :: 'x' :: List.replicate 64 'A') := by
  decide

/-- C9 (amended): for every 64-character lowercase-hex key `K` given without
a prefix, the round-trip returns `'0x' + K`, and `K` and `'0x' + K` encrypt
to the same envelope (the `0x` prefix is stripped before encryption, so
custody is prefix-insensitive). -/
theorem C9_prefix_insensitive (ks : Nat → Nat) (tagOf : List Nat → Nat)
    (h : List Char) (hlen : h.length = 64) (hall : h.all isHexLower = true) :
    decryptPrivateKey ks tagOf (encryptPrivateKey ks tagOf h)
        = some ('0' :: 'x' :: h)
      ∧ encryptPrivateKey ks tagOf h
        = encryptPrivateKey ks tagOf ('0' :: 'x' :: h) := by
  match h, hlen with
  | c1 :: c2 :: rest, hlen =>
    have hc2 : isHexLower c2 = true := by
      simp only [List.all_cons, Bool.and_eq_true] at hall
      exact hall.2.1
    have hstrip := strip0x_of_hex c1 c2 rest hc2
    have heven : (c1 :: c2 :: rest).length % 2 = 0 := by
      rw [hlen]
    constructor
    · rw [decrypt_encrypt, hstrip, hexEncode_hexDecode _ hall heven]
    · simp [encryptPrivateKey, hstrip, strip0x_of_0x]

/-- C9 witness: the prefix-insensitivity theorem applied to the concrete
lowercase key `'cd' * 32` under a nonzero keystream. -/
theorem C9_prefix_insensitive_witness :
    decryptPrivateKey (fun i => i + 3) (fun l => l.length)
        (encryptPrivateKey (fun i => i + 3) (fun l => l.length)
          (List.replicate 32 'c' ++ List.replicate 32 'd'))
        = some ('0' :: 'x' :: (List.replicate 32 'c' ++ List.replicate 32 'd'))
      ∧ encryptPrivateKey (fun i => i + 3) (fun l => l.length)
          (List.replicate 32 'c' ++ List.replicate 32 'd')
        = encryptPrivateKey (fun i => i + 3) (fun l => l.length)
          ('0' :: 'x' :: (List.replicate 32 'c' ++ List.replicate 32 'd')) :=
  C9_prefix_insensitive (fun i => i + 3) (fun l => l.length)
    (List.replicate 32 'c' ++ List.replicate 32 'd') (by decide) (by decide)

/-! Helper definitions for stating the pipeline claims, and concrete
environments used by witnesses. -/

/-- The ledger rows written during a trace, in order. -/
def recordsOf (tr : List Effect) : List TradeRecord :=
  tr.filterMap fun e =>
    match e with
    | .recordWrite r => some r
    | _ => none

theorem fetchQuote_ok_eq {res : HttpResp} {q : QuoteJson}
    (h : fetchQuote res = .ok q) : q = res.body := by
  unfold fetchQuote at h
  split at h
  · cases h
  · split at h
    · cases h
    · injection h with h
      exact h.symm

/-- A well-formed quote body: liquidity available, a nested transaction
payload, `buyAmount` of 2.0 tokens at 18 decimals, `sellAmount` of 0.0001
ETH in wei, and an allowance target. -/
def okBody : QuoteJson :=
  { liquidityAvailable := true
    transaction := some { toAddr := "0x00be", callData := "0xabcd", value := some 0 }
    toAddr := none
    callData := none
    value := none
    buyAmount := some 2000000000000000000
    sellAmount := some 100000000000000
    allowanceTarget := some "0x5be" }

/-- A successful HTTP response carrying `okBody`. -/
def okResp : HttpResp :=
  { ok := true, status := 200, body := okBody }

/-- A fully-provisioned environment: wallet present, an 18-decimals token
with symbol `TKN`, USD price 1, quote `okResp`, zero current allowance, and
a success receipt. -/
def baseEnv : Env :=
  { telegramUserId := "42"
    tokenAddress := "0x70ce"
    walletExists := true
    decimals := 18
    symbolRead := some "TKN"
    priceUsd := some 1
    quoteResp := okResp
    currentAllowance := 0
    receiptStatus := some 1 }

/-- C3: `ensureAllowanceIfNeeded` submits no approval transaction when the
current on-chain allowance already covers the required amount, and otherwise
submits exactly one approval and waits for its confirmation before
returning. -/
theorem C3_allowance_short_circuit (current amount : Nat) :
    (amount ≤ current →
      ensureAllowanceIfNeeded current amount = [.allowanceRead])
    ∧ (current < amount →
      ensureAllowanceIfNeeded current amount
          = [.allowanceRead, .approvalSubmit, .approvalWait]
        ∧ (ensureAllowanceIfNeeded current amount).count .approvalSubmit = 1) := by
  refine ⟨fun h => ?_, fun h => ?_⟩
  · simp [ensureAllowanceIfNeeded, h]
  · have hnot : ¬ amount ≤ current := by omega
    exact ⟨by simp [ensureAllowanceIfNeeded, hnot],
           by simp [ensureAllowanceIfNeeded, hnot]⟩

/-- C3 witness: allowance 5 covers a requirement of 3 (no approval); and a
requirement of 7 against allowance 0 yields exactly one approval followed by
a confirmation wait. -/
theorem C3_allowance_witness :
    ensureAllowanceIfNeeded 5 3 = [.allowanceRead]
    ∧ ensureAllowanceIfNeeded 0 7
          = [.allowanceRead, .approvalSubmit, .approvalWait]
      ∧ (ensureAllowanceIfNeeded 0 7).count .approvalSubmit = 1 :=
  ⟨(C3_allowance_short_circuit 5 3).1 (by decide),
   (C3_allowance_short_circuit 0 7).2 (by decide)⟩

/-- C5 (counterexample to the claim as stated): on a non-success HTTP status
`fetchQuote` throws a plain unclassified `Error`, not a network-classified
one — at status 500 the error's class is `plain`, not `network`. -/
theorem C5_http_error_counterexample :
    classOf (fetchQuote { ok := false, status := 500, body := okBody })
        = some ErrClass.plain
      ∧ some ErrClass.plain ≠ some ErrClass.network := by
  constructor
  · rfl
  · decide

/-- C5 (amended): on a non-success HTTP status `fetchQuote` fails with a
plain unclassified `Error('0x quote error <status>')` — not the
`NetworkError` class — which is still distinguishable from the no-liquidity
`TradeError` classification. -/
theorem C5_http_error_classification (res : HttpResp) (hok : res.ok = false) :
    fetchQuote res
        = .error (.plainError ("0x quote error " ++ toString res.status))
      ∧ classOf (fetchQuote res) ≠ some ErrClass.trade := by
  have h : fetchQuote res
      = .error (.plainError ("0x quote error " ++ toString res.status)) := by
    simp [fetchQuote, hok]
  refine ⟨h, ?_⟩
  rw [h]
  simp [classOf, BotErr.cls]

/-- C5 witness: the classification theorem applied to a concrete status-503
response. -/
theorem C5_http_error_witness :
    fetchQuote { ok := false, status := 503, body := okBody }
        = .error (.plainError "0x quote error 503")
      ∧ classOf (fetchQuote { ok := false, status := 503, body := okBody })
        ≠ some ErrClass.trade :=
  C5_http_error_classification { ok := false, status := 503, body := okBody } rfl

theorem hasRecord_append (a b : List Effect) :
    hasRecord (a ++ b) = (hasRecord a || hasRecord b) := by
  simp [hasRecord, List.any_append]

theorem hasRecord_allowance (c r : Nat) :
    hasRecord (ensureAllowanceIfNeeded c r) = false := by
  unfold ensureAllowanceIfNeeded
  split <;> rfl

theorem mem_allowance (e : Effect) (c r : Nat)
    (he : e ∈ ensureAllowanceIfNeeded c r) :
    e = .allowanceRead ∨ e = .approvalSubmit ∨ e = .approvalWait := by
  unfold ensureAllowanceIfNeeded at he
  split at he <;> simp_all

theorem buyToken_receipt_fail (env : Env) (a : ℚ)
    (h : env.receiptStatus ≠ some 1) :
    hasRecord (buyToken env a).2 = false
    ∧ (Effect.receiptWait ∈ (buyToken env a).2 →
        classOf (buyToken env a).1 = some ErrClass.trade) := by
  simp only [buyToken]
  repeat' split
  all_goals
    first
      | exact absurd ‹env.receiptStatus = some 1› h
      | exact ⟨rfl, fun _ => rfl⟩
      | exact ⟨rfl, by intro hm; simp at hm⟩

theorem sellToken_receipt_fail (env : Env) (a : ℚ)
    (h : env.receiptStatus ≠ some 1) :
    hasRecord (sellToken env a).2 = false
    ∧ (Effect.receiptWait ∈ (sellToken env a).2 →
        classOf (sellToken env a).1 = some ErrClass.trade) := by
  simp only [sellToken]
  repeat' split
  all_goals
    first
      | exact absurd ‹env.receiptStatus = some 1› h
      | exact ⟨rfl, fun _ => rfl⟩
      | exact ⟨rfl, by intro hm; simp at hm⟩
      | exact ⟨by simp only [hasRecord_append, hasRecord_allowance]; decide,
               fun _ => rfl⟩

/-- C1: on a receipt whose status is not 1, both `buyToken` and `sellToken`
fail with a `TradeError` classification and write no ledger record:
`recordTransaction` runs only after a status-1 receipt is observed. -/
theorem C1_no_record_on_failed_receipt (envB envS : Env) (aB aS : ℚ)
    (hB : envB.receiptStatus ≠ some 1) (hS : envS.receiptStatus ≠ some 1) :
    hasRecord (buyToken envB aB).2 = false
    ∧ hasRecord (sellToken envS aS).2 = false
    ∧ (Effect.receiptWait ∈ (buyToken envB aB).2 →
        classOf (buyToken envB aB).1 = some ErrClass.trade)
    ∧ (Effect.receiptWait ∈ (sellToken envS aS).2 →
        classOf (sellToken envS aS).1 = some ErrClass.trade) :=
  ⟨(buyToken_receipt_fail envB aB hB).1, (sellToken_receipt_fail envS aS hS).1,
   (buyToken_receipt_fail envB aB hB).2, (sellToken_receipt_fail envS aS hS).2⟩

/-- C1 witness: a fully-provisioned environment whose swap receipt reports
status 0 — no ledger record is written on either path. -/
theorem C1_no_record_witness :
    hasRecord (buyToken { baseEnv with receiptStatus := some 0 } 1).2 = false
    ∧ hasRecord (sellToken { baseEnv with receiptStatus := some 0 } 1).2 = false :=
  ⟨(C1_no_record_on_failed_receipt { baseEnv with receiptStatus := some 0 }
      { baseEnv with receiptStatus := some 0 } 1 1 (by decide) (by decide)).1,
   (C1_no_record_on_failed_receipt { baseEnv with receiptStatus := some 0 }
      { baseEnv with receiptStatus := some 0 } 1 1 (by decide) (by decide)).2.1⟩

theorem buyToken_no_liquidity (env : Env) (a : ℚ)
    (hok : env.quoteResp.ok = true)
    (hliq : env.quoteResp.body.liquidityAvailable = false) :
    (Effect.quoteFetch ∈ (buyToken env a).2 →
      classOf (buyToken env a).1 = some ErrClass.trade)
    ∧ Effect.swapSubmit ∉ (buyToken env a).2 := by
  have hfq : fetchQuote env.quoteResp = .error (.tradeError
      "No liquidity available for this trade. Try a different amount or token.") := by
    simp [fetchQuote, hok, hliq]
  simp only [buyToken, hfq]
  repeat' split
  all_goals
    first
      | exact ⟨fun _ => rfl, by simp⟩
      | exact ⟨by intro hm; simp at hm, by simp⟩

theorem sellToken_no_liquidity (env : Env) (a : ℚ)
    (hok : env.quoteResp.ok = true)
    (hliq : env.quoteResp.body.liquidityAvailable = false) :
    (Effect.quoteFetch ∈ (sellToken env a).2 →
      classOf (sellToken env a).1 = some ErrClass.trade)
    ∧ Effect.swapSubmit ∉ (sellToken env a).2 := by
  have hfq : fetchQuote env.quoteResp = .error (.tradeError
      "No liquidity available for this trade. Try a different amount or token.") := by
    simp [fetchQuote, hok, hliq]
  simp only [sellToken, hfq]
  repeat' split
  all_goals
    first
      | exact ⟨fun _ => rfl, by simp⟩
      | exact ⟨by intro hm; simp at hm, by simp⟩

/-- C4: when the upstream quote response is HTTP-success but reports
`liquidityAvailable: false`, both pipelines fail with the `TradeError`
("no liquidity") classification whenever the quote fetch is reached, and no
swap transaction is ever broadcast in that invocation. -/
theorem C4_no_liquidity_aborts (envB envS : Env) (aB aS : ℚ)
    (hBok : envB.quoteResp.ok = true)
    (hBliq : envB.quoteResp.body.liquidityAvailable = false)
    (hSok : envS.quoteResp.ok = true)
    (hSliq : envS.quoteResp.body.liquidityAvailable = false) :
    ((Effect.quoteFetch ∈ (buyToken envB aB).2 →
        classOf (buyToken envB aB).1 = some ErrClass.trade)
      ∧ Effect.swapSubmit ∉ (buyToken envB aB).2)
    ∧ ((Effect.quoteFetch ∈ (sellToken envS aS).2 →
        classOf (sellToken envS aS).1 = some ErrClass.trade)
      ∧ Effect.swapSubmit ∉ (sellToken envS aS).2) :=
  ⟨buyToken_no_liquidity envB aB hBok hBliq,
   sellToken_no_liquidity envS aS hSok hSliq⟩

/-- The fully-provisioned environment with a no-liquidity quote body. -/
def noLiqEnv : Env :=
  { baseEnv with
      quoteResp :=
        { ok := true, status := 200
          body := { okBody with liquidityAvailable := false } } }

/-- C4 witness: with liquidity reported unavailable, neither pipeline
broadcasts a swap transaction and each fails with the trade classification. -/
theorem C4_no_liquidity_witness :
    Effect.swapSubmit ∉ (buyToken noLiqEnv 1).2
    ∧ Effect.swapSubmit ∉ (sellToken noLiqEnv 1).2 :=
  ⟨(C4_no_liquidity_aborts noLiqEnv noLiqEnv 1 1 rfl rfl rfl rfl).1.2,
   (C4_no_liquidity_aborts noLiqEnv noLiqEnv 1 1 rfl rfl rfl rfl).2.2⟩

theorem buyToken_nonpositive (env : Env) (a : ℚ)
    (h : ∀ raw : ℤ, parseUnitsE a 18 = .ok raw → raw ≤ 0) :
    classOf (buyToken env a).1 ≠ none
    ∧ Effect.quoteFetch ∉ (buyToken env a).2
    ∧ Effect.swapSubmit ∉ (buyToken env a).2
    ∧ hasRecord (buyToken env a).2 = false := by
  cases hp : parseUnitsE a 18 with
  | error e =>
    simp only [buyToken, hp]
    split
    all_goals exact ⟨by simp [classOf], by simp, by simp, rfl⟩
  | ok raw =>
    have hraw : raw ≤ 0 := h raw hp
    simp only [buyToken, hp, hraw, if_true]
    split
    all_goals exact ⟨by simp [classOf], by simp, by simp, rfl⟩

theorem sellToken_nonpositive (env : Env) (a : ℚ)
    (h : ∀ raw : ℤ, parseUnitsE a env.decimals = .ok raw → raw ≤ 0) :
    classOf (sellToken env a).1 ≠ none
    ∧ Effect.quoteFetch ∉ (sellToken env a).2
    ∧ Effect.swapSubmit ∉ (sellToken env a).2
    ∧ hasRecord (sellToken env a).2 = false := by
  cases hp : parseUnitsE a env.decimals with
  | error e =>
    simp only [sellToken, hp]
    split
    all_goals exact ⟨by simp [classOf], by simp, by simp, rfl⟩
  | ok raw =>
    have hraw : raw ≤ 0 := h raw hp
    simp only [sellToken, hp, hraw, if_true]
    split
    all_goals exact ⟨by simp [classOf], by simp, by simp, rfl⟩

/-- C7 (counterexample to the claim as stated): an amount that normalizes to
zero is rejected only *after* network calls have been made — at amount 0,
`buyToken` has already resolved the signer, read the token metadata and
fetched the USD price when it throws the amount rejection. -/
theorem C7_network_before_reject_counterexample :
    classOf (buyToken baseEnv 0).1 = some ErrClass.plain
    ∧ Effect.signerResolve ∈ (buyToken baseEnv 0).2
    ∧ Effect.metadataRead ∈ (buyToken baseEnv 0).2
    ∧ Effect.priceFetch ∈ (buyToken baseEnv 0).2 := by
  have hp : parseUnitsE 0 18 = Except.ok 0 := by
    simp [parseUnitsE, Rat.den_zero, Rat.num_zero]
  have hb : buyToken baseEnv 0
      = (.error (.plainError "Amount too small. Increase amount."),
         [.signerResolve, .metadataRead, .priceFetch]) := by
    simp [buyToken, hp, baseEnv]
  rw [hb]
  exact ⟨rfl, by simp, by simp, by simp⟩

/-- C7 (amended): an amount whose normalization is not strictly positive is
rejected before the quote fetch, before any transaction broadcast and before
any ledger write (the signer resolution, token-metadata read and price fetch
do happen first). -/
theorem C7_nonpositive_rejected_before_quote (envB envS : Env) (aB aS : ℚ)
    (hB : ∀ raw : ℤ, parseUnitsE aB 18 = .ok raw → raw ≤ 0)
    (hS : ∀ raw : ℤ, parseUnitsE aS envS.decimals = .ok raw → raw ≤ 0) :
    (classOf (buyToken envB aB).1 ≠ none
      ∧ Effect.quoteFetch ∉ (buyToken envB aB).2
      ∧ Effect.swapSubmit ∉ (buyToken envB aB).2
      ∧ hasRecord (buyToken envB aB).2 = false)
    ∧ (classOf (sellToken envS aS).1 ≠ none
      ∧ Effect.quoteFetch ∉ (sellToken envS aS).2
      ∧ Effect.swapSubmit ∉ (sellToken envS aS).2
      ∧ hasRecord (sellToken envS aS).2 = false) :=
  ⟨buyToken_nonpositive envB aB hB, sellToken_nonpositive envS aS hS⟩

/-- C7 witness: the amended theorem at amount 0 in the fully-provisioned
environment — no quote fetch, no broadcast, no ledger write. -/
theorem C7_nonpositive_witness :
    Effect.quoteFetch ∉ (buyToken baseEnv 0).2
    ∧ Effect.quoteFetch ∉ (sellToken baseEnv 0).2 := by
  have hp : parseUnitsE 0 18 = Except.ok 0 := by
    simp [parseUnitsE, Rat.den_zero, Rat.num_zero]
  have hB : ∀ raw : ℤ, parseUnitsE 0 18 = .ok raw → raw ≤ 0 := by
    intro raw hr
    rw [hp] at hr
    injection hr with h2
    omega
  have hS : ∀ raw : ℤ, parseUnitsE 0 baseEnv.decimals = .ok raw → raw ≤ 0 := by
    intro raw hr
    rw [show baseEnv.decimals = 18 from rfl, hp] at hr
    injection hr with h2
    omega
  exact ⟨(C7_nonpositive_rejected_before_quote baseEnv baseEnv 0 0 hB hS).1.2.1,
         (C7_nonpositive_rejected_before_quote baseEnv baseEnv 0 0 hB hS).2.2.1⟩

/-- C8: the buy scenario — 18-decimals token, quote `buyAmount`
2_000000000000000000 for a 0.0001 ETH sell, successful receipt — returns
`tokensReceived = 2` and persists exactly one Trade Record
`{symbol TKN, amount 2, order type buy}`. -/
theorem C8_buy_scenario :
    (buyToken baseEnv (1 / 10000)).1
        = .ok { symbol := "TKN", tokensReceived := 2,
                ethSpent := 1 / 10000, priceUsd := some 1 }
    ∧ recordsOf (buyToken baseEnv (1 / 10000)).2
        = [{ telegramUserId := "42", symbol := "TKN", amount := 2,
             priceUsd := some 1, orderType := .buy }] := by
  have hp : parseUnitsE (1 / 10000) 18 = Except.ok 100000000000000 := by
    have h1 : (1 / 10000 : ℚ) * (10 : ℚ) ^ 18
        = ((100000000000000 : ℤ) : ℚ) := by norm_num
    unfold parseUnitsE
    rw [h1]
    simp
  have hq : fetchQuote baseEnv.quoteResp = .ok okBody := by
    simp [fetchQuote, baseEnv, okResp, okBody]
  have hf : formatUnitsQ 2000000000000000000 18 = 2 := by
    norm_num [formatUnitsQ]
  constructor
  · simp only [buyToken, hp, hq]
    simp [baseEnv, okBody, jsTruthyStr, hf]
  · simp only [buyToken, hp, hq]
    simp [baseEnv, okBody, jsTruthyStr, hf, recordsOf]

theorem sellToken_no_allowanceTarget (env : Env) (a : ℚ)
    (h : env.quoteResp.body.allowanceTarget = none) :
    Effect.allowanceRead ∉ (sellToken env a).2
    ∧ Effect.approvalSubmit ∉ (sellToken env a).2
    ∧ (∀ r, (sellToken env a).1 = .ok r →
        Effect.swapSubmit ∈ (sellToken env a).2) := by
  cases hq : fetchQuote env.quoteResp with
  | error e =>
    simp only [sellToken, hq]
    repeat' split
    all_goals
      exact ⟨by simp, by simp, fun r hr => Except.noConfusion hr⟩
  | ok quote =>
    have hq2 : quote = env.quoteResp.body := fetchQuote_ok_eq hq
    have hal : jsTruthyStr quote.allowanceTarget = false := by
      rw [hq2, h]
      rfl
    simp only [sellToken, hq, hal]
    repeat' split
    all_goals
      first
        | exact (Bool.false_ne_true ‹false = true›).elim
        | exact ⟨by simp, by simp, fun r hr => Except.noConfusion hr⟩
        | exact ⟨by simp, by simp, fun r hr => by simp⟩

/-- C10: when the quote carries no `allowanceTarget`, `sellToken` performs
no allowance read and submits no approval transaction; a successful run
still broadcasts the swap transaction. -/
theorem C10_no_allowance_without_target (env : Env) (a : ℚ)
    (h : env.quoteResp.body.allowanceTarget = none) :
    Effect.allowanceRead ∉ (sellToken env a).2
    ∧ Effect.approvalSubmit ∉ (sellToken env a).2
    ∧ (∀ r, (sellToken env a).1 = .ok r →
        Effect.swapSubmit ∈ (sellToken env a).2) :=
  sellToken_no_allowanceTarget env a h

/-- The fully-provisioned environment whose quote lacks `allowanceTarget`. -/
def noTargetEnv : Env :=
  { baseEnv with
      quoteResp :=
        { ok := true, status := 200
          body := { okBody with allowanceTarget := none } } }

/-- C10 witness: with no `allowanceTarget` in the quote, a concrete sell
performs neither an allowance read nor an approval submission. -/
theorem C10_no_allowance_witness :
    Effect.allowanceRead ∉ (sellToken noTargetEnv 1).2
    ∧ Effect.approvalSubmit ∉ (sellToken noTargetEnv 1).2 :=
  ⟨(C10_no_allowance_without_target noTargetEnv 1 rfl).1,
   (C10_no_allowance_without_target noTargetEnv 1 rfl).2.1⟩

/-- The net amount the holdings map of `getHoldings` associates to a symbol
(0 when the symbol is absent). -/
def lookup0 (l : List (String × ℚ)) (s : String) : ℚ :=
  (l.lookup s).getD 0

theorem lookup0_upsert_same (acc : List (String × ℚ)) (sym : String) (d : ℚ) :
    lookup0 (upsertNet acc sym d) sym = lookup0 acc sym + d := by
  induction acc with
  | nil => simp [upsertNet, lookup0, List.lookup]
  | cons kv rest ih =>
    obtain ⟨k, v⟩ := kv
    by_cases hk : k = sym
    · subst hk
      simp [upsertNet, lookup0, List.lookup]
    · have hb : (sym == k) = false := by
        simp [beq_eq_false_iff_ne]
        exact fun he => hk he.symm
      simp only [upsertNet, if_neg hk, lookup0, List.lookup, hb]
      exact ih

theorem lookup0_upsert_ne (acc : List (String × ℚ)) (s sym : String) (d : ℚ)
    (hne : s ≠ sym) :
    lookup0 (upsertNet acc s d) sym = lookup0 acc sym := by
  induction acc with
  | nil =>
    have hb : (sym == s) = false := by
      simp [beq_eq_false_iff_ne]
      exact fun he => hne he.symm
    simp [upsertNet, lookup0, List.lookup, hb]
  | cons kv rest ih =>
    obtain ⟨k, v⟩ := kv
    by_cases hk : k = s
    · subst hk
      have hb : (sym == k) = false := by
        simp [beq_eq_false_iff_ne]
        exact fun he => hne he.symm
      simp [upsertNet, lookup0, List.lookup, hb]
    · simp only [upsertNet, if_neg hk, lookup0, List.lookup]
      cases hb : sym == k with
      | true => simp
      | false => exact ih

theorem lookup0_foldl (sym : String) :
    ∀ (rows : List TradeRecord) (acc : List (String × ℚ)),
      lookup0 (rows.foldl (fun acc r => upsertNet acc r.symbol (signedDelta r)) acc) sym
        = lookup0 acc sym
          + ((rows.filter (fun r => r.symbol == sym)).map signedDelta).sum := by
  intro rows
  induction rows with
  | nil => intro acc; simp
  | cons r rows ih =>
    intro acc
    simp only [List.foldl_cons, List.filter_cons]
    by_cases h : r.symbol = sym
    · subst h
      rw [ih, lookup0_upsert_same]
      simp
      ring
    · have hb : (r.symbol == sym) = false := by
        simp [beq_eq_false_iff_ne, h]
      rw [ih, lookup0_upsert_ne _ _ _ _ h, hb]
      simp

theorem netAmount_eq_buys_sub_sells (rows : List TradeRecord) (uid sym : String) :
    netAmount rows uid sym
      = ((rows.filter (fun r =>
            r.telegramUserId == uid && r.symbol == sym
              && r.orderType == OrderType.buy)).map (fun r => r.amount)).sum
        - ((rows.filter (fun r =>
            r.telegramUserId == uid && r.symbol == sym
              && r.orderType == OrderType.sell)).map (fun r => r.amount)).sum := by
  induction rows with
  | nil => simp [netAmount]
  | cons r rows ih =>
    simp only [netAmount, List.filter_cons] at ih ⊢
    by_cases h1 : r.telegramUserId = uid
    · by_cases h2 : r.symbol = sym
      · cases ho : r.orderType with
        | buy =>
          simp [h1, h2, ho, signedDelta, ih]
          ring
        | sell =>
          simp [h1, h2, ho, signedDelta, ih]
          ring
      · simp [h1, h2, ih]
    · simp [h1, ih]

theorem getHoldings_lookup_eq_netAmount (rows : List TradeRecord)
    (uid sym : String) :
    lookup0 (getHoldings rows uid) sym = netAmount rows uid sym := by
  unfold getHoldings netAmount
  rw [lookup0_foldl]
  have hf : (rows.filter (fun r => r.telegramUserId == uid)).filter
        (fun r => r.symbol == sym)
      = rows.filter (fun r => r.telegramUserId == uid && r.symbol == sym) := by
    rw [List.filter_filter]
    apply List.filter_congr
    intro r _
    exact Bool.and_comm _ _
  rw [← hf]
  simp [lookup0, List.lookup]

theorem mem_get_holdings_for_user (rows : List TradeRecord) (p : String)
    (x : String × ℚ) (hx : x ∈ get_holdings_for_user rows p) :
    0 < x.2 ∧ x.2 = netAmount rows p x.1 := by
  unfold get_holdings_for_user at hx
  rcases List.mem_filterMap.1 hx with ⟨s, _, hsx⟩
  dsimp only at hsx
  by_cases h : 0 < netAmount rows p s
  · rw [if_pos h] at hsx
    cases hsx
    exact ⟨h, rfl⟩
  · rw [if_neg h] at hsx
    cases hsx

/-- C6: the derived net holding per symbol is the sum of buy amounts minus
the sum of sell amounts — both in `portfolio.ts`'s `getHoldings` map and in
the SQL `get_holdings_for_user` aggregate — and a symbol whose net is not
strictly positive is excluded from the listed current holdings. -/
theorem C6_holdings_derivation (rows : List TradeRecord) (uid sym : String) :
    lookup0 (getHoldings rows uid) sym
        = ((rows.filter (fun r =>
              r.telegramUserId == uid && r.symbol == sym
                && r.orderType == OrderType.buy)).map (fun r => r.amount)).sum
          - ((rows.filter (fun r =>
              r.telegramUserId == uid && r.symbol == sym
                && r.orderType == OrderType.sell)).map (fun r => r.amount)).sum
    ∧ (∀ x ∈ get_holdings_for_user rows uid,
        0 < x.2 ∧ x.2 = netAmount rows uid x.1)
    ∧ (¬ 0 < netAmount rows uid sym →
        ∀ q : ℚ, (sym, q) ∉ get_holdings_for_user rows uid) := by
  refine ⟨?_, fun x hx => mem_get_holdings_for_user rows uid x hx, ?_⟩
  · rw [getHoldings_lookup_eq_netAmount]
    exact netAmount_eq_buys_sub_sells rows uid sym
  · intro hnot q hq
    have := mem_get_holdings_for_user rows uid (sym, q) hq
    exact hnot (this.2 ▸ this.1)

/-- Ledger rows of the spec's first holdings example: buys of 10 and 5 and a
sell of 3 on one symbol. -/
def c6rowsA : List TradeRecord :=
  [{ telegramUserId := "7", symbol := "T", amount := 10, priceUsd := none,
     orderType := .buy },
   { telegramUserId := "7", symbol := "T", amount := 5, priceUsd := none,
     orderType := .buy },
   { telegramUserId := "7", symbol := "T", amount := 3, priceUsd := none,
     orderType := .sell }]

/-- Ledger rows of the spec's second holdings example: a buy of 5 and a sell
of 5 on one symbol (net zero). -/
def c6rowsB : List TradeRecord :=
  [{ telegramUserId := "7", symbol := "T", amount := 5, priceUsd := none,
     orderType := .buy },
   { telegramUserId := "7", symbol := "T", amount := 5, priceUsd := none,
     orderType := .sell }]

/-- C6 witness: `[+10 buy, +5 buy, −3 sell]` nets to 12 in the holdings map,
and after `[+5 buy, −5 sell]` (net 0) the symbol is excluded from the listed
current holdings. -/
theorem C6_holdings_witness :
    lookup0 (getHoldings c6rowsA "7") "T" = 12
    ∧ ("T", (0 : ℚ)) ∉ get_holdings_for_user c6rowsB "7" := by
  have e1 : (OrderType.buy == OrderType.sell) = false := rfl
  have e2 : (OrderType.sell == OrderType.buy) = false := rfl
  have e3 : (OrderType.buy == OrderType.buy) = true := rfl
  have e4 : (OrderType.sell == OrderType.sell) = true := rfl
  constructor
  · rw [(C6_holdings_derivation c6rowsA "7" "T").1]
    simp [c6rowsA, e1, e2, e3, e4]
    norm_num
  · exact (C6_holdings_derivation c6rowsB "7" "T").2.2
      (by simp [netAmount, c6rowsB, signedDelta, e1, e2, e3, e4]) 0

end DexBot
